import Mathlib

/-!
Verification of the skin-tone estimation pipeline (`Skin_detection.ipynb`).

The source is shallowly embedded: normalized pixel colors become rational
triples, the per-pixel classifier `is_likely_skin_color`, the cluster
selector `get_dominant_non_dark_cluster`, the lightness bands
`get_lightness_description`, the brightness-percentile summarizer, and the
`display_skin_analysis` pipeline are translated function by function.
External library calls (cv2 color-space conversions, sklearn KMeans) are
modelled from the specification, as documented on the relevant definitions.
-/

namespace SkinDetection

attribute [local semireducible] Rat.mul Rat.inv Rat.add Rat.sub

/-- Floor of a rational number, computed by floor-division of the numerator
by the denominator (kernel-reducible, used instead of `Int.floor`). -/
def ratFloor (q : ℚ) : ℤ := Int.fdiv q.num q.den

/-- Round-to-nearest (half up) of a rational number. -/
def ratRound (q : ℚ) : ℤ := ratFloor (q + 1/2)

/-- Modelled from the spec: the cv2 `COLOR_BGR2HSV` conversion applied to a
single 8-bit pixel (the source builds `np.uint8([[[b, g, r]]])` from the RGB
input and converts it).  The spec asks for the standard conversion with
`h ∈ [0,179]`, `s, v ∈ [0,255]`: `v = max`, `s = 255·(v−min)/v` rounded, and
the hue in half-degrees, rounded, with negative values shifted by 180.
Takes the color in (r, g, b) order. -/
def cvtHSV (r g b : ℕ) : ℕ × ℕ × ℕ :=
  let v := max r (max g b)
  let mn := min r (min g b)
  let diff := v - mn
  let s : ℕ := if v = 0 then 0 else (ratRound ((255 * (diff : ℚ)) / v)).toNat
  let hraw : ℚ :=
    if diff = 0 then 0
    else if v = r then 30 * ((g : ℚ) - b) / diff
    else if v = g then 60 + 30 * ((b : ℚ) - r) / diff
    else 120 + 30 * ((r : ℚ) - g) / diff
  let hi : ℤ := ratRound hraw
  let h : ℕ := (if hi < 0 then hi + 180 else hi).toNat
  (h, s, v)

/-- Modelled from the spec: the cv2 `COLOR_BGR2YCrCb` conversion applied to a
single 8-bit pixel.  Standard coefficients `y = 0.299r + 0.587g + 0.114b`,
`cr = (r − y)·0.713 + 128`, `cb = (b − y)·0.564 + 128`, each rounded and
saturated to `[0,255]`.  Takes the color in (r, g, b) order. -/
def cvtYCrCb (r g b : ℕ) : ℕ × ℕ × ℕ :=
  let y : ℤ := ratRound ((299 * (r : ℚ) + 587 * g + 114 * b) / 1000)
  let cr : ℤ := ratRound ((((r : ℚ) - y) * 713) / 1000 + 128)
  let cb : ℤ := ratRound ((((b : ℚ) - y) * 564) / 1000 + 128)
  ((max 0 (min 255 y)).toNat, (max 0 (min 255 cr)).toNat, (max 0 (min 255 cb)).toNat)

/-- The per-pixel skin classifier `is_likely_skin_color(r, g, b)` of the
source: returns false on an all-zero color, otherwise combines an RGB rule,
a normalized-RGB rule, an HSV rule and a YCrCb rule. -/
def is_likely_skin_color (r g b : ℕ) : Bool :=
  if r + g + b = 0 then false
  else
    let rgbOk := decide (95 < r) && decide (40 < g) && decide (20 < b) &&
      decide (15 < max r (max g b) - min r (min g b)) &&
      decide (15 < ((r : ℤ) - g).natAbs) && decide (g < r) && decide (b < r)
    let nr : ℚ := (r : ℚ) / ((r : ℚ) + g + b)
    let ng : ℚ := (g : ℚ) / ((r : ℚ) + g + b)
    let nb : ℚ := (b : ℚ) / ((r : ℚ) + g + b)
    let nOk := decide (35/100 < nr) && decide (nb < 35/100) && decide (ng < nr) &&
      decide (nb < ng) && decide (|nr - ng| < 35/100)
    let hsv := cvtHSV r g b
    let hOk := decide (hsv.1 ≤ 50) && decide (10 ≤ hsv.2.1) &&
      decide (hsv.2.1 ≤ 180) && decide (80 ≤ hsv.2.2)
    let yc := cvtYCrCb r g b
    let yOk := decide (135 ≤ yc.2.1) && decide (yc.2.1 ≤ 180) &&
      decide (85 ≤ yc.2.2) && decide (yc.2.2 ≤ 135)
    (rgbOk && nOk) || (hOk && yOk)

/-- The spec's RGB-rule:
`r>95 ∧ g>40 ∧ b>20 ∧ (max−min)>15 ∧ |r−g|>15 ∧ r>g ∧ r>b`. -/
def RGB_rule (r g b : ℕ) : Prop :=
  95 < r ∧ 40 < g ∧ 20 < b ∧ 15 < max r (max g b) - min r (min g b) ∧
    15 < ((r : ℤ) - g).natAbs ∧ g < r ∧ b < r

/-- The spec's normalized-rule over `nr = r/sum`, `ng = g/sum`, `nb = b/sum`:
`nr>0.35 ∧ nb<0.35 ∧ nr>ng ∧ ng>nb ∧ |nr−ng|<0.35`. -/
def normalized_rule (r g b : ℕ) : Prop :=
  35/100 < (r : ℚ) / ((r : ℚ) + g + b) ∧ (b : ℚ) / ((r : ℚ) + g + b) < 35/100 ∧
    (g : ℚ) / ((r : ℚ) + g + b) < (r : ℚ) / ((r : ℚ) + g + b) ∧
    (b : ℚ) / ((r : ℚ) + g + b) < (g : ℚ) / ((r : ℚ) + g + b) ∧
    |(r : ℚ) / ((r : ℚ) + g + b) - (g : ℚ) / ((r : ℚ) + g + b)| < 35/100

/-- The spec's HSV-rule: `0≤h≤50 ∧ 10≤s≤180 ∧ v≥80` (here `h : ℕ`, so `0 ≤ h`
is automatic). -/
def HSV_rule (r g b : ℕ) : Prop :=
  (cvtHSV r g b).1 ≤ 50 ∧ 10 ≤ (cvtHSV r g b).2.1 ∧
    (cvtHSV r g b).2.1 ≤ 180 ∧ 80 ≤ (cvtHSV r g b).2.2

/-- The spec's YCrCb-rule: `135≤cr≤180 ∧ 85≤cb≤135`. -/
def YCrCb_rule (r g b : ℕ) : Prop :=
  135 ≤ (cvtYCrCb r g b).2.1 ∧ (cvtYCrCb r g b).2.1 ≤ 180 ∧
    85 ≤ (cvtYCrCb r g b).2.2 ∧ (cvtYCrCb r g b).2.2 ≤ 135

/-- The source's un-normalization `int(x * 255)` of a channel in `[0,1]`
(truncation, which is the floor for non-negative values). -/
def unnorm (x : ℚ) : ℕ := (ratFloor (x * 255)).toNat

/-- The cluster-median skin test as the source actually performs it inside
`get_dominant_non_dark_cluster`: `rgb = tuple(int(x*255) for x in median)`
followed by `is_likely_skin_color(*rgb[::-1])`, i.e. the channel-REVERSED
triple `(b, g, r)` is handed to the `(r, g, b)` parameters. -/
def clusterIsSkin (m : ℚ × ℚ × ℚ) : Bool :=
  is_likely_skin_color (unnorm m.2.2) (unnorm m.2.1) (unnorm m.1)

/-- The cluster-median skin test as the spec describes it: the classifier
receives the un-normalized median in (r, g, b) channel order. -/
def clusterIsSkinSpec (m : ℚ × ℚ × ℚ) : Bool :=
  is_likely_skin_color (unnorm m.1) (unnorm m.2.1) (unnorm m.2.2)

instance (r g b : ℕ) : Decidable (RGB_rule r g b) := by
  unfold RGB_rule; infer_instance

instance (r g b : ℕ) : Decidable (normalized_rule r g b) := by
  unfold normalized_rule; infer_instance

instance (r g b : ℕ) : Decidable (HSV_rule r g b) := by
  unfold HSV_rule; infer_instance

instance (r g b : ℕ) : Decidable (YCrCb_rule r g b) := by
  unfold YCrCb_rule; infer_instance

/-- C2: for every 8-bit RGB triple, `is_likely_skin_color` returns false when
`r+g+b = 0`, and otherwise returns exactly
`(RGB-rule ∧ normalized-rule) ∨ (HSV-rule ∧ YCrCb-rule)`, with the HSV and
YCrCb data obtained from the standard color-space conversions of the input. -/
theorem classifier_decision_rule (r g b : ℕ)
    (_hr : r ≤ 255) (_hg : g ≤ 255) (_hb : b ≤ 255) :
    (r + g + b = 0 → is_likely_skin_color r g b = false) ∧
    (r + g + b ≠ 0 → (is_likely_skin_color r g b = true ↔
      (RGB_rule r g b ∧ normalized_rule r g b) ∨
        (HSV_rule r g b ∧ YCrCb_rule r g b))) := by
  constructor
  · intro h0
    unfold is_likely_skin_color
    rw [if_pos h0]
  · intro h0
    unfold is_likely_skin_color
    rw [if_neg h0]
    simp only [RGB_rule, normalized_rule, HSV_rule, YCrCb_rule,
      Bool.and_eq_true, Bool.or_eq_true, decide_eq_true_eq, and_assoc]

/-- Witness for C2: the canonical light-skin triple (200, 150, 120) is within
range and classified as skin-like. -/
theorem classifier_decision_rule_check :
    200 ≤ 255 ∧ is_likely_skin_color 200 150 120 = true :=
  ⟨by decide,
    ((classifier_decision_rule 200 150 120 (by decide) (by decide)
        (by decide)).2 (by decide)).mpr
      (Or.inl ⟨by decide, by decide⟩)⟩

/-- C1: the skin test applied to a cluster median inside
`get_dominant_non_dark_cluster` channel-reverses the triple before calling
the classifier.  At the median color (200/255, 150/255, 120/255) the code's
test (`clusterIsSkin`) answers false while the classifier applied in (r,g,b)
order as the spec states (`clusterIsSkinSpec`) answers true: the code calls
`is_likely_skin_color(120, 150, 200)` instead of
`is_likely_skin_color(200, 150, 120)`. -/
theorem cluster_skin_test_reversed :
    clusterIsSkin ((200 : ℚ)/255, (150 : ℚ)/255, (120 : ℚ)/255) = false ∧
    clusterIsSkinSpec ((200 : ℚ)/255, (150 : ℚ)/255, (120 : ℚ)/255) = true := by
  constructor
  · decide
  · decide

/-- Mean of a list of rationals (`np.mean`); `0` on the empty list. -/
def mean (l : List ℚ) : ℚ := l.sum / l.length

/-- Insert a rational into an ascending list, keeping it ascending. -/
def insertAsc (x : ℚ) : List ℚ → List ℚ
  | [] => [x]
  | y :: ys => if x ≤ y then x :: y :: ys else y :: insertAsc x ys

/-- Ascending insertion sort of a list of rationals. -/
def sortAsc : List ℚ → List ℚ
  | [] => []
  | x :: xs => insertAsc x (sortAsc xs)

/-- `np.percentile(l, q)` with the default linear interpolation: sort the
list ascending, take the fractional position `q·(n−1)/100` and interpolate
linearly between the two neighbouring order statistics.  `np.median` is the
`q = 50` case.  Returns `0` on the empty list (never reached by the code). -/
def percentile (q : ℚ) (l : List ℚ) : ℚ :=
  let s := sortAsc l
  let n := s.length
  if n = 0 then 0
  else
    let pos : ℚ := q * ((n : ℚ) - 1) / 100
    let i : ℕ := (ratFloor pos).toNat
    let lo := s.getD i 0
    let hi := s.getD (i + 1) lo
    lo + (pos - (i : ℚ)) * (hi - lo)

/-- Population variance of a list of rationals (`np.var`, `ddof = 0`). -/
def popVar (l : List ℚ) : ℚ :=
  (l.map (fun x => (x - mean l) ^ 2)).sum / l.length

/-- The summarization step of `display_skin_analysis`, translated from the
source: per-channel 95th percentile, brightness-tail filter
`mean(pixel) > mean(percentiles) * 0.7`, fallback to the unfiltered set when
the filter keeps nothing, per-channel median of the kept set, and
un-normalization `int(x * 255)` per channel. -/
def summarize (sp : List (ℚ × ℚ × ℚ)) : ℕ × ℕ × ℕ :=
  let thr := (percentile 95 (sp.map (·.1)) + percentile 95 (sp.map (·.2.1)) +
    percentile 95 (sp.map (·.2.2))) / 3 * (7/10)
  let filtered := sp.filter (fun p => decide (thr < (p.1 + p.2.1 + p.2.2) / 3))
  let kept := if filtered = [] then sp else filtered
  (unnorm (percentile 50 (kept.map (·.1))),
   unnorm (percentile 50 (kept.map (·.2.1))),
   unnorm (percentile 50 (kept.map (·.2.2))))

/-- The brightness threshold of the summarizer as the spec words it: the mean
of the three per-channel 95th-percentile values, times 0.7. -/
def brightThreshold (sp : List (ℚ × ℚ × ℚ)) : ℚ :=
  (percentile 95 (sp.map (·.1)) + percentile 95 (sp.map (·.2.1)) +
    percentile 95 (sp.map (·.2.2))) / 3 * (7/10)

/-- The pixels the summarizer keeps, as the spec words it: exactly those
whose mean channel value strictly exceeds the brightness threshold, the whole
unfiltered set when that filter keeps no pixel. -/
def keptPixels (sp : List (ℚ × ℚ × ℚ)) : List (ℚ × ℚ × ℚ) :=
  if sp.filter (fun p => decide (brightThreshold sp < (p.1 + p.2.1 + p.2.2) / 3)) = []
  then sp
  else sp.filter (fun p => decide (brightThreshold sp < (p.1 + p.2.1 + p.2.2) / 3))

/-- The summarizer's result as the spec words it: the per-channel median of
the kept pixels, un-normalized to 8-bit by truncation after scaling by 255. -/
def summarizeSpec (sp : List (ℚ × ℚ × ℚ)) : ℕ × ℕ × ℕ :=
  (unnorm (percentile 50 ((keptPixels sp).map (·.1))),
   unnorm (percentile 50 ((keptPixels sp).map (·.2.1))),
   unnorm (percentile 50 ((keptPixels sp).map (·.2.2))))

/-- C4: on every non-empty pixel set, the summarizer computes exactly the
spec's description — per-channel 95th percentiles, the strict
brightness-tail filter at `mean(percentiles)·0.7`, fallback to the whole set
when the filter keeps nothing — and the kept set is never empty, so this step
never raises and returns the truncated per-channel median of the kept set. -/
theorem summarizer_contract (sp : List (ℚ × ℚ × ℚ)) (h : sp ≠ []) :
    summarize sp = summarizeSpec sp ∧ keptPixels sp ≠ [] := by
  constructor
  · rfl
  · by_cases hf : sp.filter (fun p => decide
        (brightThreshold sp < (p.1 + p.2.1 + p.2.2) / 3)) = []
    · simp only [keptPixels, hf]
      simpa using h
    · simp only [keptPixels, if_neg hf]
      exact hf

/-- Witness for C4: the summarizer agrees with the spec's description on a
concrete one-pixel set. -/
theorem summarizer_contract_check :
    ([((1 : ℚ)/2, (1 : ℚ)/2, (1 : ℚ)/2)] ≠ ([] : List (ℚ × ℚ × ℚ))) ∧
    summarize [((1 : ℚ)/2, (1 : ℚ)/2, (1 : ℚ)/2)] =
      summarizeSpec [((1 : ℚ)/2, (1 : ℚ)/2, (1 : ℚ)/2)] :=
  ⟨by decide, (summarizer_contract _ (by decide)).1⟩

/-- The lightness-category mapping `get_lightness_description` of the source:
seven bands selected by inclusive lower bounds 85, 70, 55, 40, 25, 10. -/
def get_lightness_description (L : ℚ) : String :=
  if 85 ≤ L then "Very Light"
  else if 70 ≤ L then "Light"
  else if 55 ≤ L then "Medium Light"
  else if 40 ≤ L then "Medium"
  else if 25 ≤ L then "Medium Dark"
  else if 10 ≤ L then "Dark"
  else "Very Dark"

/-- C5: on `[0, 100]` the seven lightness bands partition the interval with
inclusive lower bounds: each category is returned exactly on its half-open
band, so there are no gaps or overlaps, and each boundary value
(85, 70, 55, 40, 25, 10) maps to the higher band. -/
theorem lightness_bands (L : ℚ) (_h0 : 0 ≤ L) (_h100 : L ≤ 100) :
    (get_lightness_description L = "Very Light" ↔ 85 ≤ L) ∧
    (get_lightness_description L = "Light" ↔ 70 ≤ L ∧ L < 85) ∧
    (get_lightness_description L = "Medium Light" ↔ 55 ≤ L ∧ L < 70) ∧
    (get_lightness_description L = "Medium" ↔ 40 ≤ L ∧ L < 55) ∧
    (get_lightness_description L = "Medium Dark" ↔ 25 ≤ L ∧ L < 40) ∧
    (get_lightness_description L = "Dark" ↔ 10 ≤ L ∧ L < 25) ∧
    (get_lightness_description L = "Very Dark" ↔ L < 10) := by
  unfold get_lightness_description
  split_ifs with h1 h2 h3 h4 h5 h6 <;>
    refine ⟨?_, ?_, ?_, ?_, ?_, ?_, ?_⟩ <;> constructor <;> intro hx <;>
    first
      | rfl
      | exact absurd hx (by decide)
      | linarith
      | exact ⟨by linarith, by linarith⟩

/-- Witness for C5: the boundary value 85 lies in `[0, 100]` and maps to the
higher band "Very Light". -/
theorem lightness_bands_check :
    (0 : ℚ) ≤ 85 ∧ get_lightness_description 85 = "Very Light" :=
  ⟨by norm_num,
    (lightness_bands 85 (by norm_num) (by norm_num)).1.mpr (by norm_num)⟩

/-- The per-cluster record accumulated by `get_dominant_non_dark_cluster`:
the tuple `(i, score, brightness, size, median_color)` of the source. -/
structure ClusterInfo where
  id : ℕ
  score : ℚ
  brightness : ℚ
  size : ℕ
  median : ℚ × ℚ × ℚ
deriving DecidableEq

/-- The pixels of cluster `i`: `pixels[labels == i]` over the co-indexed
pixel and label lists. -/
def clusterMembers (pixels : List (ℚ × ℚ × ℚ)) (labels : List ℕ) (i : ℕ) :
    List (ℚ × ℚ × ℚ) :=
  ((pixels.zip labels).filter (fun pl => decide (pl.2 = i))).map (·.1)

/-- The cluster record of `get_dominant_non_dark_cluster`: median color per
channel, brightness = mean of the median channels, variance = mean of the
per-channel population variances, size, and the weighted score
`0.4·brightness + 0.3·(1 − variance) + 0.3·(size/total)`, boosted by 1.5
when the (channel-reversed) skin test on the median color succeeds. -/
def mkClusterInfo (i total : ℕ) (cp : List (ℚ × ℚ × ℚ)) : ClusterInfo :=
  let med := (percentile 50 (cp.map (·.1)), percentile 50 (cp.map (·.2.1)),
    percentile 50 (cp.map (·.2.2)))
  let brightness := (med.1 + med.2.1 + med.2.2) / 3
  let variance := (popVar (cp.map (·.1)) + popVar (cp.map (·.2.1)) +
    popVar (cp.map (·.2.2))) / 3
  let base := 2/5 * brightness + 3/10 * (1 - variance) +
    3/10 * ((cp.length : ℚ) / total)
  ⟨i, if clusterIsSkin med then base * (3/2) else base, brightness, cp.length, med⟩

/-- The accumulation loop of `get_dominant_non_dark_cluster`: for
`i in range(n_clusters)` keep a record for every non-empty cluster, in
increasing cluster-id order. -/
def buildClusters (pixels : List (ℚ × ℚ × ℚ)) (labels : List ℕ) (n : ℕ) :
    List ClusterInfo :=
  (List.range n).filterMap (fun i =>
    if clusterMembers pixels labels i = [] then none
    else some (mkClusterInfo i pixels.length (clusterMembers pixels labels i)))

/-- The acceptance test of step 4 of the selector:
`brightness > 0.15 and size > len(pixels) * 0.05` and the (channel-reversed)
skin test on the median color. -/
def acceptable (total : ℕ) (c : ClusterInfo) : Bool :=
  decide ((15 : ℚ)/100 < c.brightness) &&
    decide ((total : ℚ) * (5/100) < (c.size : ℚ)) && clusterIsSkin c.median

/-- Insert a cluster record into a score-descending list, before the first
record of less-or-equal score (this is where an incoming record passes every
earlier-id record of equal score, matching a stable descending sort). -/
def insertDesc (x : ClusterInfo) : List ClusterInfo → List ClusterInfo
  | [] => [x]
  | y :: ys => if y.score ≤ x.score then x :: y :: ys else y :: insertDesc x ys

/-- Stable descending-by-score insertion sort, the behaviour of the source's
`clusters.sort(key=lambda x: -x[1])` (Python's sort is stable). -/
def sortDesc : List ClusterInfo → List ClusterInfo
  | [] => []
  | x :: xs => insertDesc x (sortDesc xs)

/-- The selector `get_dominant_non_dark_cluster(pixels, labels, n_clusters)`:
build the per-cluster records, sort them descending by score, return the
first acceptable cluster's id, else the top-scored cluster's id; `none`
models the `IndexError` Python would raise on `clusters[0]` when no cluster
record exists at all. -/
def get_dominant_non_dark_cluster (pixels : List (ℚ × ℚ × ℚ))
    (labels : List ℕ) (n : ℕ) : Option ℕ :=
  let cs := sortDesc (buildClusters pixels labels n)
  match cs.find? (acceptable pixels.length) with
  | some c => some c.id
  | none => cs.head?.map (·.id)

lemma mem_insertDesc (x a : ClusterInfo) (l : List ClusterInfo) :
    a ∈ insertDesc x l ↔ a = x ∨ a ∈ l := by
  induction l with
  | nil => simp [insertDesc]
  | cons y ys ih =>
    unfold insertDesc
    split
    · simp [List.mem_cons]
    · simp only [List.mem_cons, ih]
      tauto

lemma mem_sortDesc (a : ClusterInfo) (l : List ClusterInfo) :
    a ∈ sortDesc l ↔ a ∈ l := by
  induction l with
  | nil => simp [sortDesc]
  | cons x xs ih => simp [sortDesc, mem_insertDesc, ih, List.mem_cons]

lemma insertDesc_ne_nil (x : ClusterInfo) (l : List ClusterInfo) :
    insertDesc x l ≠ [] := by
  cases l with
  | nil => simp [insertDesc]
  | cons y ys =>
    unfold insertDesc
    split <;> simp

lemma sortDesc_ne_nil {l : List ClusterInfo} (h : l ≠ []) : sortDesc l ≠ [] := by
  cases l with
  | nil => exact absurd rfl h
  | cons x xs => exact insertDesc_ne_nil x (sortDesc xs)

lemma pairwise_insertDesc (x : ClusterInfo) (l : List ClusterInfo)
    (h : l.Pairwise (fun a b => b.score ≤ a.score)) :
    (insertDesc x l).Pairwise (fun a b => b.score ≤ a.score) := by
  induction l with
  | nil => simp [insertDesc]
  | cons y ys ih =>
    rw [List.pairwise_cons] at h
    unfold insertDesc
    split
    · rename_i hyx
      refine List.Pairwise.cons ?_ (List.Pairwise.cons h.1 h.2)
      intro z hz
      rcases List.mem_cons.mp hz with rfl | hz'
      · exact hyx
      · exact le_trans (h.1 z hz') hyx
    · rename_i hyx
      push_neg at hyx
      refine List.Pairwise.cons ?_ (ih h.2)
      intro z hz
      rcases (mem_insertDesc x z ys).mp hz with rfl | hz'
      · exact le_of_lt hyx
      · exact h.1 z hz'

lemma pairwise_sortDesc (l : List ClusterInfo) :
    (sortDesc l).Pairwise (fun a b => b.score ≤ a.score) := by
  induction l with
  | nil => simp [sortDesc]
  | cons x xs ih => exact pairwise_insertDesc x _ ih

/-- The combined order a stable descending sort of an id-increasing input
establishes: scores descend, and on equal scores the ids increase. -/
def StableOrd (a b : ClusterInfo) : Prop :=
  b.score ≤ a.score ∧ (a.score = b.score → a.id < b.id)

lemma pairwise_stable_insertDesc (x : ClusterInfo) (l : List ClusterInfo)
    (h : l.Pairwise StableOrd) (hx : ∀ y ∈ l, x.id < y.id) :
    (insertDesc x l).Pairwise StableOrd := by
  induction l with
  | nil => simp [insertDesc]
  | cons y ys ih =>
    rw [List.pairwise_cons] at h
    unfold insertDesc
    split
    · rename_i hyx
      refine List.Pairwise.cons ?_ (List.Pairwise.cons h.1 h.2)
      intro z hz
      rcases List.mem_cons.mp hz with rfl | hz'
      · exact ⟨hyx, fun _ => hx z (List.mem_cons_self _ _)⟩
      · exact ⟨le_trans (h.1 z hz').1 hyx, fun _ => hx z (List.mem_cons_of_mem _ hz')⟩
    · rename_i hyx
      push_neg at hyx
      refine List.Pairwise.cons ?_
        (ih h.2 (fun z hz => hx z (List.mem_cons_of_mem _ hz)))
      intro z hz
      rcases (mem_insertDesc x z ys).mp hz with rfl | hz'
      · exact ⟨le_of_lt hyx, fun he => absurd he.symm (ne_of_lt hyx)⟩
      · exact h.1 z hz'

lemma pairwise_stable_sortDesc (l : List ClusterInfo)
    (h : l.Pairwise (fun a b => a.id < b.id)) :
    (sortDesc l).Pairwise StableOrd := by
  induction l with
  | nil => simp [sortDesc]
  | cons x xs ih =>
    rw [List.pairwise_cons] at h
    exact pairwise_stable_insertDesc x _ (ih h.2)
      (fun y hy => h.1 y ((mem_sortDesc y xs).mp hy))

lemma pairwise_filterMap_of {α β : Type} (f : α → Option β)
    (R : β → β → Prop) (S : α → α → Prop)
    (hf : ∀ a b x y, S a b → f a = some x → f b = some y → R x y) :
    ∀ {l : List α}, l.Pairwise S → (l.filterMap f).Pairwise R := by
  intro l h
  induction h with
  | nil => simp
  | @cons a l' ha _ ih =>
    rw [List.filterMap_cons]
    cases hfa : f a with
    | none => exact ih
    | some x =>
      refine List.Pairwise.cons ?_ ih
      intro y hy
      rcases List.mem_filterMap.mp hy with ⟨b, hb, hfb⟩
      exact hf a b x y (ha b hb) hfa hfb

lemma buildClusters_id_of {pixels : List (ℚ × ℚ × ℚ)} {labels : List ℕ}
    {i : ℕ} {c : ClusterInfo}
    (h : (if clusterMembers pixels labels i = [] then none
          else some (mkClusterInfo i pixels.length
            (clusterMembers pixels labels i))) = some c) :
    c.id = i := by
  split at h
  · exact absurd h (by simp)
  · cases Option.some.inj h
    rfl

lemma buildClusters_pairwise_id (pixels : List (ℚ × ℚ × ℚ)) (labels : List ℕ)
    (n : ℕ) :
    (buildClusters pixels labels n).Pairwise (fun a b => a.id < b.id) := by
  unfold buildClusters
  refine pairwise_filterMap_of _ _ (· < ·) ?_ (List.pairwise_lt_range n)
  intro a b x y hab hfa hfb
  rw [buildClusters_id_of hfa, buildClusters_id_of hfb]
  exact hab

lemma buildClusters_members_ne_nil {pixels : List (ℚ × ℚ × ℚ)}
    {labels : List ℕ} {n : ℕ} {c : ClusterInfo}
    (h : c ∈ buildClusters pixels labels n) :
    clusterMembers pixels labels c.id ≠ [] := by
  unfold buildClusters at h
  rcases List.mem_filterMap.mp h with ⟨i, _, hf⟩
  have hid : c.id = i := buildClusters_id_of hf
  split at hf
  · exact absurd hf (by simp)
  · rename_i hcp
    rw [hid]
    exact hcp

lemma buildClusters_mem_of {pixels : List (ℚ × ℚ × ℚ)} {labels : List ℕ}
    {n i : ℕ} (hi : i < n) (hcp : clusterMembers pixels labels i ≠ []) :
    mkClusterInfo i pixels.length (clusterMembers pixels labels i) ∈
      buildClusters pixels labels n := by
  unfold buildClusters
  exact List.mem_filterMap.mpr ⟨i, List.mem_range.mpr hi, by simp [hcp]⟩

/-- C10: the selector's sorted cluster list is stable: the records are
accumulated in increasing cluster-id order and the descending-by-score sort
preserves that order among equal scores, so whenever two records in the
sorted list have exactly equal scores, the earlier one has the smaller
cluster id (and is therefore considered, and if acceptable returned,
first). -/
theorem stable_tiebreak_by_id (pixels : List (ℚ × ℚ × ℚ)) (labels : List ℕ)
    (n : ℕ) :
    (sortDesc (buildClusters pixels labels n)).Pairwise
      (fun a b => a.score = b.score → a.id < b.id) :=
  (pairwise_stable_sortDesc _
    (buildClusters_pairwise_id pixels labels n)).imp (fun hab => hab.2)

/-- C6: on a non-empty restricted pixel set with co-indexed labels all below
`n`, the selector always returns some cluster id (never raises), and when no
recorded cluster passes the step-4 acceptance test, the returned cluster has
the highest score of all recorded clusters. -/
theorem selector_total_with_fallback (pixels : List (ℚ × ℚ × ℚ))
    (labels : List ℕ) (n : ℕ) (hne : pixels ≠ [])
    (hlen : labels.length = pixels.length) (hlt : ∀ l ∈ labels, l < n) :
    ∃ c ∈ buildClusters pixels labels n,
      get_dominant_non_dark_cluster pixels labels n = some c.id ∧
      ((∀ d ∈ buildClusters pixels labels n,
          acceptable pixels.length d = false) →
        ∀ d ∈ buildClusters pixels labels n, d.score ≤ c.score) := by
  have hbuild : buildClusters pixels labels n ≠ [] := by
    cases pixels with
    | nil => exact absurd rfl hne
    | cons p0 ps =>
      cases labels with
      | nil => simp at hlen
      | cons l0 ls =>
        have hmem : (p0, l0) ∈ (p0 :: ps).zip (l0 :: ls) :=
          List.mem_cons_self _ _
        have hcp : clusterMembers (p0 :: ps) (l0 :: ls) l0 ≠ [] :=
          List.ne_nil_of_mem (List.mem_map.mpr
            ⟨(p0, l0), List.mem_filter.mpr ⟨hmem, by simp⟩, rfl⟩)
        exact List.ne_nil_of_mem
          (buildClusters_mem_of (hlt l0 (List.mem_cons_self _ _)) hcp)
  cases hfind : (sortDesc (buildClusters pixels labels n)).find?
      (acceptable pixels.length) with
  | some c =>
    refine ⟨c, (mem_sortDesc c _).mp (List.mem_of_find?_eq_some hfind), ?_, ?_⟩
    · simp [get_dominant_non_dark_cluster, hfind]
    · intro hall
      exact absurd (List.find?_some hfind)
        (by simp [hall c ((mem_sortDesc c _).mp
          (List.mem_of_find?_eq_some hfind))])
  | none =>
    cases hcs : sortDesc (buildClusters pixels labels n) with
    | nil => exact absurd hcs (sortDesc_ne_nil hbuild)
    | cons c rest =>
      have hpw := pairwise_sortDesc (buildClusters pixels labels n)
      rw [hcs, List.pairwise_cons] at hpw
      refine ⟨c, (mem_sortDesc c _).mp (hcs ▸ List.mem_cons_self _ _), ?_, ?_⟩
      · simp only [get_dominant_non_dark_cluster]
        rw [hfind]
        simp [hcs]
      · intro _ d hd
        have hd' : d ∈ sortDesc (buildClusters pixels labels n) :=
          (mem_sortDesc d _).mpr hd
        rw [hcs, List.mem_cons] at hd'
        rcases hd' with rfl | hd''
        · exact le_refl _
        · exact hpw.1 d hd''

/-- Witness for C6: on the one-pixel one-label input the selector returns a
cluster id. -/
theorem selector_total_with_fallback_check :
    (get_dominant_non_dark_cluster [((1 : ℚ), (1 : ℚ), (1 : ℚ))] [0] 1).isSome
      = true := by
  obtain ⟨c, _, h2, _⟩ := selector_total_with_fallback
    [((1 : ℚ), (1 : ℚ), (1 : ℚ))] [0] 1 (by decide) (by decide) (by decide)
  rw [h2]
  rfl

/-- A decoded (and bilateral-filtered) raster image as the extraction loop of
`display_skin_analysis` reads it: `px row col` is the stored (b, g, r)
channel triple at that coordinate and `alpha` is the optional opacity
channel (`none` models a 3-channel BGR image). -/
structure Image where
  height : ℕ
  width : ℕ
  px : ℕ → ℕ → ℕ × ℕ × ℕ
  alpha : Option (ℕ → ℕ → ℕ)

/-- The failure modes of the pipeline: the source's `ValueError`s for empty
input, empty center patch and no skin pixels, the clustering failure for too
few samples, and the `IndexError` Python would raise on `clusters[0]` of an
empty cluster list. -/
inductive PipeError where
  | EmptyInputError
  | InsufficientDataError
  | EmptyCenterPatchError
  | IndexError
  | NoSkinPixelsError
deriving DecidableEq

/-- Opacity of a pixel: the alpha channel when the image has one, else 255
(the source sets `a = 255` for 3-channel images). -/
def alphaAt (img : Image) (row col : ℕ) : ℕ :=
  match img.alpha with
  | some a => a row col
  | none => 255

/-- The extraction loop of `display_skin_analysis`: scan the grid in
row-major order and keep, for every pixel whose opacity exceeds 127, its
`(row, col)` coordinates and its RGB color normalized by 255. -/
def validEntries (img : Image) : List ((ℕ × ℕ) × (ℚ × ℚ × ℚ)) :=
  (List.range img.height).flatMap (fun row =>
    (List.range img.width).filterMap (fun col =>
      if 127 < alphaAt img row col then
        some ((row, col), (((img.px row col).2.2 : ℚ) / 255,
          ((img.px row col).2.1 : ℚ) / 255, ((img.px row col).1 : ℚ) / 255))
      else none))

/-- The `valid_pixel_coords` list of the source. -/
def validCoords (img : Image) : List (ℕ × ℕ) := (validEntries img).map (·.1)

/-- The `pixels` list of the source (normalized RGB, co-indexed with
`validCoords`). -/
def validPixels (img : Image) : List (ℚ × ℚ × ℚ) := (validEntries img).map (·.2)

/-- Modelled from the spec: sklearn's `KMeans(n_clusters=5, n_init=10).fit`
is external to the repository.  Per the spec's contract for PixelClusterer it
fails (`InsufficientDataError`) when there are fewer vectors than clusters
and otherwise partitions the `count` vectors into exactly `k` groups,
returning one label per vector; the concrete labelling `i % k` realizes that
contract. -/
def kmeansLabels (k count : ℕ) : Except PipeError (List ℕ) :=
  if count < k then .error .InsufficientDataError
  else .ok ((List.range count).map (fun i => i % k))

/-- The half-width `patch_size = min(width, height) // 4` of the center
patch. -/
def patchHalf (img : Image) : ℕ := min img.width img.height / 4

/-- The center-patch membership test of the source:
`abs(col - width // 2) < patch_size and abs(row - height // 2) < patch_size`. -/
def inCenterPatch (img : Image) (rc : ℕ × ℕ) : Bool :=
  decide (((rc.2 : ℤ) - ((img.width / 2 : ℕ) : ℤ)).natAbs < patchHalf img) &&
    decide (((rc.1 : ℤ) - ((img.height / 2 : ℕ) : ℤ)).natAbs < patchHalf img)

/-- The core pipeline of `display_skin_analysis`: extract the valid pixels
(`EmptyInputError` when none), cluster their feature vectors into 5 groups
(`InsufficientDataError` when fewer than 5), restrict to the center patch
(`EmptyCenterPatchError` when empty), select the skin cluster on the
restricted colors and labels, gather all pixels of that cluster
(`NoSkinPixelsError` when none) and summarize them to an 8-bit RGB triple.
The plotting and the output-image construction of the source have no effect
on the returned value and are omitted. -/
def display_skin_analysis (img : Image) : Except PipeError (ℕ × ℕ × ℕ) :=
  let entries := validEntries img
  let pixels := validPixels img
  if pixels = [] then .error .EmptyInputError
  else
    match kmeansLabels 5 pixels.length with
    | .error e => .error e
    | .ok labels =>
      let center := (entries.zip labels).filter (fun e => inCenterPatch img e.1.1)
      if center = [] then .error .EmptyCenterPatchError
      else
        match get_dominant_non_dark_cluster (center.map (fun e => e.1.2))
            (center.map (fun e => e.2)) 5 with
        | none => .error .IndexError
        | some skin =>
          let skinPixels := (pixels.zip labels).filterMap
            (fun pl => if pl.2 = skin then some pl.1 else none)
          if skinPixels = [] then .error .NoSkinPixelsError
          else .ok (summarize skinPixels)

lemma mem_validCoords (img : Image) (row col : ℕ) :
    (row, col) ∈ validCoords img ↔
      (row < img.height ∧ col < img.width ∧ 127 < alphaAt img row col) := by
  unfold validCoords validEntries
  simp only [List.mem_map, List.mem_flatMap, List.mem_filterMap,
    List.mem_range]
  constructor
  · rintro ⟨e, ⟨row', hrow, col', hcol, heq⟩, hfst⟩
    split at heq
    · rename_i ha
      cases Option.some.inj heq
      rw [Prod.mk.injEq] at hfst
      obtain ⟨rfl, rfl⟩ := hfst
      exact ⟨hrow, hcol, ha⟩
    · exact absurd heq (by simp)
  · rintro ⟨hrow, hcol, ha⟩
    exact ⟨((row, col), (((img.px row col).2.2 : ℚ) / 255,
      ((img.px row col).2.1 : ℚ) / 255, ((img.px row col).1 : ℚ) / 255)),
      ⟨row, hrow, col, hcol, by rw [if_pos ha]⟩, rfl⟩

/-- C8: a pixel participates in the pipeline exactly when it lies in the grid
and its opacity exceeds 127; an image without an opacity channel has every
in-grid pixel participate (opacity treated as 255); and when no pixel
participates the pipeline fails with `EmptyInputError`. -/
theorem valid_pixel_rule (img : Image) :
    (∀ row col, (row, col) ∈ validCoords img ↔
      (row < img.height ∧ col < img.width ∧ 127 < alphaAt img row col)) ∧
    (img.alpha = none → ∀ row col, (row, col) ∈ validCoords img ↔
      (row < img.height ∧ col < img.width)) ∧
    (validCoords img = [] →
      display_skin_analysis img = .error .EmptyInputError) := by
  refine ⟨mem_validCoords img, ?_, ?_⟩
  · intro hal row col
    rw [mem_validCoords img row col]
    simp [alphaAt, hal]
  · intro hc
    have hp : validPixels img = [] := by
      unfold validPixels
      rw [List.map_eq_nil_iff.mp hc]
      rfl
    simp [display_skin_analysis, hp]

/-- Witness for C8: the fully transparent 2×2 image has no valid pixel and
the pipeline fails with `EmptyInputError` on it. -/
theorem valid_pixel_rule_check :
    validCoords (Image.mk 2 2 (fun _ _ => (0, 0, 0)) (some (fun _ _ => 0)))
        = [] ∧
    display_skin_analysis
        (Image.mk 2 2 (fun _ _ => (0, 0, 0)) (some (fun _ _ => 0)))
      = .error .EmptyInputError :=
  ⟨by decide,
    (valid_pixel_rule
      (Image.mk 2 2 (fun _ _ => (0, 0, 0)) (some (fun _ _ => 0)))).2.2
      (by decide)⟩

/-- C3: when at least one but fewer than 5 valid pixels exist, the pipeline
fails with `InsufficientDataError`; with at least 5 valid pixels the
clustering stage succeeds and partitions the feature vectors into exactly 5
non-empty groups, one label per vector. -/
theorem clustering_stage_contract (img : Image)
    (h1 : 1 ≤ (validPixels img).length) :
    ((validPixels img).length < 5 →
      display_skin_analysis img = .error .InsufficientDataError) ∧
    (5 ≤ (validPixels img).length →
      ∃ labels, kmeansLabels 5 (validPixels img).length = .ok labels ∧
        labels.length = (validPixels img).length ∧
        (∀ l ∈ labels, l < 5) ∧ (∀ j < 5, j ∈ labels)) := by
  constructor
  · intro h5
    have hp : validPixels img ≠ [] := by
      intro h
      rw [h] at h1
      simp at h1
    have hk : kmeansLabels 5 (validPixels img).length
        = .error .InsufficientDataError := by
      unfold kmeansLabels
      rw [if_pos h5]
    simp [display_skin_analysis, hp, hk]
  · intro h5
    refine ⟨(List.range (validPixels img).length).map (fun i => i % 5),
      ?_, by simp, ?_, ?_⟩
    · unfold kmeansLabels
      rw [if_neg (by omega)]
    · intro l hl
      rcases List.mem_map.mp hl with ⟨i, _, rfl⟩
      exact Nat.mod_lt _ (by norm_num)
    · intro j hj
      exact List.mem_map.mpr
        ⟨j, List.mem_range.mpr (by omega), Nat.mod_eq_of_lt hj⟩

/-- Witness for C3: the 2×2 fully opaque image has 4 valid pixels and the
pipeline fails with `InsufficientDataError` on it. -/
theorem clustering_stage_contract_check :
    1 ≤ (validPixels (Image.mk 2 2 (fun _ _ => (100, 100, 100)) none)).length ∧
    display_skin_analysis (Image.mk 2 2 (fun _ _ => (100, 100, 100)) none)
      = .error .InsufficientDataError :=
  ⟨by decide,
    (clustering_stage_contract
      (Image.mk 2 2 (fun _ _ => (100, 100, 100)) none) (by decide)).1
      (by decide)⟩

lemma natAbs_lt_iff (x : ℤ) (k : ℕ) : x.natAbs < k ↔ |x| < (k : ℤ) := by
  rw [Int.abs_eq_natAbs]
  exact Int.ofNat_lt.symm

/-- C7: the center patch is exactly the set of valid pixels whose coordinates
satisfy `|col − width//2| < min(width,height)//4` and
`|row − height//2| < min(width,height)//4`, and when no valid pixel lies in
it (once the earlier stages pass) the pipeline fails with
`EmptyCenterPatchError`. -/
theorem center_patch_characterization (img : Image) :
    (∀ rc : ℕ × ℕ, rc ∈ (validCoords img).filter (inCenterPatch img) ↔
      (rc ∈ validCoords img ∧
        |(rc.2 : ℤ) - ((img.width / 2 : ℕ) : ℤ)| < (patchHalf img : ℤ) ∧
        |(rc.1 : ℤ) - ((img.height / 2 : ℕ) : ℤ)| < (patchHalf img : ℤ))) ∧
    (validPixels img ≠ [] → ¬ (validPixels img).length < 5 →
      (validCoords img).filter (inCenterPatch img) = [] →
      display_skin_analysis img = .error .EmptyCenterPatchError) := by
  constructor
  · intro rc
    rw [List.mem_filter]
    refine and_congr_right (fun _ => ?_)
    unfold inCenterPatch
    rw [Bool.and_eq_true, decide_eq_true_eq, decide_eq_true_eq,
      natAbs_lt_iff, natAbs_lt_iff]
  · intro hp h5 hcf
    have hk : kmeansLabels 5 (validPixels img).length
        = .ok ((List.range (validPixels img).length).map (fun i => i % 5)) := by
      unfold kmeansLabels
      rw [if_neg h5]
    have hcenter : ((validEntries img).zip
        ((List.range (validPixels img).length).map (fun i => i % 5))).filter
          (fun e => inCenterPatch img e.1.1) = [] := by
      rw [List.filter_eq_nil_iff]
      rintro ⟨e1, e2⟩ hmem
      have he1 : e1 ∈ validEntries img := (List.of_mem_zip hmem).1
      have hc1 : e1.1 ∈ validCoords img := List.mem_map.mpr ⟨e1, he1, rfl⟩
      simpa using List.filter_eq_nil_iff.mp hcf e1.1 hc1
    simp [display_skin_analysis, hp, hk, hcenter]

/-- Witness for C7: a 4×4 image transparent exactly at the single
center-patch cell (2,2) has 15 valid pixels, none inside the center patch,
and the pipeline fails with `EmptyCenterPatchError` on it. -/
theorem center_patch_characterization_check :
    validPixels (Image.mk 4 4 (fun _ _ => (10, 20, 30))
        (some (fun row col => if row = 2 ∧ col = 2 then 0 else 255))) ≠ [] ∧
    display_skin_analysis (Image.mk 4 4 (fun _ _ => (10, 20, 30))
        (some (fun row col => if row = 2 ∧ col = 2 then 0 else 255)))
      = .error .EmptyCenterPatchError :=
  ⟨by decide,
    (center_patch_characterization (Image.mk 4 4 (fun _ _ => (10, 20, 30))
        (some (fun row col => if row = 2 ∧ col = 2 then 0 else 255)))).2
      (by decide) (by decide) (by decide)⟩

lemma gd_some_mem_labels {pixels : List (ℚ × ℚ × ℚ)} {labels : List ℕ}
    {n i : ℕ} (h : get_dominant_non_dark_cluster pixels labels n = some i) :
    i ∈ labels := by
  have hbase : ∀ c : ClusterInfo,
      c ∈ buildClusters pixels labels n → c.id ∈ labels := by
    intro c hc
    have hne := buildClusters_members_ne_nil hc
    unfold clusterMembers at hne
    rcases List.exists_mem_of_ne_nil _ hne with ⟨p, hp⟩
    rcases List.mem_map.mp hp with ⟨⟨q, l⟩, hql, _⟩
    have hf := List.mem_filter.mp hql
    have hlab : l = c.id := by simpa using hf.2
    exact hlab ▸ (List.of_mem_zip hf.1).2
  simp only [get_dominant_non_dark_cluster] at h
  cases hfind : (sortDesc (buildClusters pixels labels n)).find?
      (acceptable pixels.length) with
  | some c =>
    rw [hfind] at h
    cases Option.some.inj h
    exact hbase c ((mem_sortDesc c _).mp (List.mem_of_find?_eq_some hfind))
  | none =>
    rw [hfind] at h
    cases hcs : sortDesc (buildClusters pixels labels n) with
    | nil =>
      rw [hcs] at h
      simp at h
    | cons c rest =>
      rw [hcs] at h
      simp only [List.head?_cons, Option.map_some'] at h
      cases Option.some.inj h
      exact hbase c ((mem_sortDesc c _).mp (hcs ▸ List.mem_cons_self _ _))

/-- C9: whenever the selector succeeds, the returned cluster id labels a
pixel of the center patch, hence a valid pixel of the whole image, so the
`NoSkinPixelsError` check that follows is unreachable: the pipeline never
fails with `NoSkinPixelsError`. -/
theorem no_skin_pixels_unreachable (img : Image) :
    display_skin_analysis img ≠ .error .NoSkinPixelsError := by
  intro hcontra
  simp only [display_skin_analysis] at hcontra
  by_cases hp : validPixels img = []
  · simp [hp] at hcontra
  · rw [if_neg hp] at hcontra
    by_cases hn : (validPixels img).length < 5
    · have hk : kmeansLabels 5 (validPixels img).length
          = .error .InsufficientDataError := by
        unfold kmeansLabels
        rw [if_pos hn]
      rw [hk] at hcontra
      simp at hcontra
    · have hk : kmeansLabels 5 (validPixels img).length
          = .ok ((List.range (validPixels img).length).map (fun i => i % 5)) := by
        unfold kmeansLabels
        rw [if_neg hn]
      rw [hk] at hcontra
      simp only [] at hcontra
      by_cases hc : ((validEntries img).zip
          ((List.range (validPixels img).length).map (fun i => i % 5))).filter
            (fun e => inCenterPatch img e.1.1) = []
      · simp [hc] at hcontra
      · rw [if_neg hc] at hcontra
        cases hgd : get_dominant_non_dark_cluster
            ((((validEntries img).zip
              ((List.range (validPixels img).length).map (fun i => i % 5))).filter
                (fun e => inCenterPatch img e.1.1)).map (fun e => e.1.2))
            ((((validEntries img).zip
              ((List.range (validPixels img).length).map (fun i => i % 5))).filter
                (fun e => inCenterPatch img e.1.1)).map (fun e => e.2)) 5 with
        | none =>
          rw [hgd] at hcontra
          simp at hcontra
        | some skin =>
          have hskin := gd_some_mem_labels hgd
          rcases List.mem_map.mp hskin with ⟨e, hec, helab⟩
          have heZip : e ∈ (validEntries img).zip
              ((List.range (validPixels img).length).map (fun i => i % 5)) :=
            (List.mem_filter.mp hec).1
          have hpair : (e.1.2, e.2) ∈ (validPixels img).zip
              ((List.range (validPixels img).length).map (fun i => i % 5)) := by
            unfold validPixels
            rw [List.zip_map_left]
            exact List.mem_map.mpr ⟨e, heZip, rfl⟩
          have hsp : e.1.2 ∈ ((validPixels img).zip
              ((List.range (validPixels img).length).map (fun i => i % 5))).filterMap
                (fun pl => if pl.2 = skin then some pl.1 else none) :=
            List.mem_filterMap.mpr ⟨(e.1.2, skin), helab ▸ hpair, by simp⟩
          rw [hgd] at hcontra
          simp [List.ne_nil_of_mem hsp] at hcontra

end SkinDetection
